import Mathlib

/-!
Verification development for the multiplayer session layer of
Pong-Multiplayer-RS (src/bin/server.rs, src/bin/client.rs,
src/common_net.rs, src/common_game.rs).

The server runs inside a Bevy ECS fixed-tick loop.  The embedding models
the per-tick execution of the networking systems as pure functions over an
explicit `ServerState`.  Two pieces of Bevy semantics matter and are
modelled explicitly:

* `Commands` (component insertions/removals) issued during a system run are
  deferred: they are applied to the world only after the system finishes.
  Queries evaluated during the run therefore see the world as it was when
  the system started.  This is modelled with an explicit `Cmd` list which
  is applied to the paddle list at the end of `server_update_system`.
* Query iteration order is modelled as spawn order: `setup_server` in
  common_game.rs spawns the Left paddle first, then the Right paddle.

Positions and velocities are `f32` in the source; they are carried here as
integer pairs because every operation the verified claims touch only ever
copies them (no arithmetic on them occurs in the modelled systems, except
the reset to constant zero in `resetter`).
-/

/-- PlayerSide from common_game.rs: either left or right. -/
inductive PlayerSide where
  | Left
  | Right
deriving DecidableEq, Repr

/-- PlayerInput from common_net.rs: the four directional input bits. -/
structure PlayerInput where
  up : Bool := false
  down : Bool := false
  left : Bool := false
  right : Bool := false
deriving DecidableEq, Repr

/-- GameState from common_net.rs / common_game.rs: the full game snapshot
broadcast on channel 1.  The `playing` field is the one written and read by
`get_gamestate` / `set_gamestate` in common_game.rs (the common_net.rs copy
of the struct is the older evolutionary revision of the same type which
lacks the field; the secured server version requires it). -/
structure GameState where
  ball_loc : Int × Int
  ball_velocity : Int × Int
  paddle_l_loc : Int × Int
  paddle_r_loc : Int × Int
  score_l : Int
  score_r : Int
  playing : Bool
deriving DecidableEq, Repr

/-- ServerMessages from common_net.rs plus the PlayerIsSide variant used by
the secured server in server.rs (slot-assignment notice). -/
inductive ServerMessages where
  | PlayerConnected (id : Nat)
  | PlayerDisconnected (id : Nat)
  | PlayerIsSide (side : PlayerSide)
  | PlayerCheck
deriving DecidableEq, Repr

/-- ClientMessages from common_net.rs. -/
inductive ClientMessages where
  | PlayerCheckResponse (id : Nat)
  | AuthenticationRequest (id : Nat)
deriving DecidableEq, Repr

/-- The two renet server events consumed by server_update_system. -/
inductive ServerEvent where
  | ClientConnected (id : Nat)
  | ClientDisconnected (id : Nat)
deriving DecidableEq, Repr

/-- A deferred Bevy command issued through `Commands` during a system run:
insertion/removal of the Player marker or of a PlayerInput component on a
paddle entity. -/
inductive Cmd where
  | insertPlayer (e : Nat)
  | removePlayer (e : Nat)
  | insertInput (e : Nat) (i : PlayerInput)
  | removeInput (e : Nat)
deriving DecidableEq, Repr

/-- A server-side paddle entity: its entity id, its PaddleSide component,
whether the Player marker component is currently attached, its PlayerInput
component (if attached), and its y translation. -/
structure Paddle where
  entity : Nat
  side : PlayerSide
  hasPlayer : Bool
  input : Option PlayerInput
  y : Int
deriving DecidableEq, Repr

/-- The server-side state owned by the tick loop: the paddle entities, the
Lobby resource (client id to entity map, modelled as an association list
with distinct keys), the transport session set (`server.clients_id()`), the
Playing flag, the Scoreboard, the ResetDue resource (with a ghost counter
of how many times the flag-raising statement ran), the CheckResponses
vector, all messages handed to the transport (recipient, channel, payload),
the ball, the RespawnTimer, and the ReconnectTimer (elapsed milliseconds,
paused, finished) together with its companion latch boolean (`timer.1`). -/
structure ServerState where
  paddles : List Paddle
  lobby : List (Nat × Nat)
  connected : List Nat
  playing : Bool
  scoreleft : Nat
  scoreright : Nat
  resetDue : Bool
  resetRaises : Nat
  responses : List Nat
  outbox : List (Nat × Nat × ServerMessages)
  ballLoc : Int × Int
  ballVel : Int × Int
  respawnElapsed : Nat
  timerElapsed : Nat
  timerPaused : Bool
  timerFinished : Bool
  latch : Bool
deriving DecidableEq, Repr

/-- Association-list lookup with decidable equality on `Nat` keys,
modelling `HashMap::get` / per-client message queues. -/
def lookupBox {α : Type} : List (Nat × α) → Nat → Option α
  | [], _ => none
  | pr :: rest, k => if pr.1 = k then some pr.2 else lookupBox rest k

/-- `HashMap::insert`: replace the value if the key is present, otherwise
add a new entry. -/
def lobbyInsert : List (Nat × Nat) → Nat → Nat → List (Nat × Nat)
  | [], k, v => [(k, v)]
  | pr :: rest, k, v =>
    if pr.1 = k then (k, v) :: rest else pr :: lobbyInsert rest k v

/-- `HashMap::remove`: drop every entry with the given key (at most one for
a well-formed map). -/
def removeKey : List (Nat × Nat) → Nat → List (Nat × Nat)
  | [], _ => []
  | pr :: rest, k => if pr.1 = k then removeKey rest k else pr :: removeKey rest k

/-- Apply one deferred command to one paddle entity. -/
def applyCmd (p : Paddle) (c : Cmd) : Paddle :=
  match c with
  | Cmd.insertPlayer e => if p.entity = e then { p with hasPlayer := true } else p
  | Cmd.removePlayer e => if p.entity = e then { p with hasPlayer := false } else p
  | Cmd.insertInput e i => if p.entity = e then { p with input := some i } else p
  | Cmd.removeInput e => if p.entity = e then { p with input := none } else p

/-- Apply a queue of deferred commands, in order, to the world (commands
never spawn or despawn paddles, so this is a per-entity fold). -/
def applyCmds (ps : List Paddle) (cmds : List Cmd) : List Paddle :=
  ps.map (fun p => cmds.foldl applyCmd p)

/-- The query `(Entity, &PaddleSide), (With<Paddle>, Without<Player>)`:
paddle entities currently lacking the Player marker, in spawn order. -/
def freePaddles (ps : List Paddle) : List (Nat × PlayerSide) :=
  (ps.filter (fun p => !p.hasPlayer)).map (fun p => (p.entity, p.side))

/-- `server.broadcast_message(channel, msg)`: one copy per connected client. -/
def broadcastMsg (conn : List Nat) (ch : Nat) (m : ServerMessages) :
    List (Nat × Nat × ServerMessages) :=
  conn.map (fun c => (c, ch, m))

/-- Remove a client id from the transport session set (`server.disconnect`
and the session removal behind a ClientDisconnected event). -/
def dropClient (conn : List Nat) (id : Nat) : List Nat :=
  conn.filter (fun c => c != id)

/-- One iteration of the `for event in server_events.iter()` loop of
server_update_system (server.rs lines 185-248).  `view` is the free-paddle
query result, fixed for the whole system run because the Player insertions
are deferred commands. -/
def processEvent (view : List (Nat × PlayerSide)) (sc : ServerState × List Cmd)
    (ev : ServerEvent) : ServerState × List Cmd :=
  match ev with
  | ServerEvent.ClientConnected id =>
    let s0 := sc.1
    let s := { s0 with connected := if s0.connected.contains id then s0.connected else s0.connected ++ [id] }
    match view.head? with
    | none => ({ s with connected := dropClient s.connected id }, sc.2)
    | some pe =>
      let cmds := sc.2 ++ [Cmd.insertPlayer pe.1, Cmd.insertInput pe.1 {}]
      let out1 := s.outbox ++ s.lobby.map (fun pr => (id, 0, ServerMessages.PlayerConnected pr.1))
      let out2 := out1 ++ [(id, 0, ServerMessages.PlayerIsSide pe.2)]
      let lobby := lobbyInsert s.lobby id pe.1
      let hit2 := decide (2 ≤ lobby.length)
      let out3 := out2 ++ broadcastMsg s.connected 0 (ServerMessages.PlayerConnected id)
      ({ s with lobby := lobby
              , outbox := out3
              , resetDue := if hit2 then true else s.resetDue
              , resetRaises := if hit2 then s.resetRaises + 1 else s.resetRaises }, cmds)
  | ServerEvent.ClientDisconnected id =>
    let s0 := sc.1
    let s := { s0 with connected := dropClient s0.connected id }
    let removed := lookupBox s.lobby id
    let lobby := removeKey s.lobby id
    let cmds := match removed with
      | some e => sc.2 ++ [Cmd.removePlayer e, Cmd.removeInput e]
      | none => sc.2
    let s1 := if lobby.length ≤ 2 then
        { s with lobby := lobby, playing := false, scoreleft := 0, scoreright := 0 }
      else { s with lobby := lobby }
    ({ s1 with outbox := s1.outbox ++ broadcastMsg s1.connected 0 (ServerMessages.PlayerDisconnected id) }, cmds)

/-- The whole event loop, in event order. -/
def processEvents (view : List (Nat × PlayerSide)) :
    ServerState × List Cmd → List ServerEvent → ServerState × List Cmd
  | sc, [] => sc
  | sc, ev :: rest => processEvents view (processEvent view sc ev) rest

/-- The channel-0 drain loop for one client (server.rs lines 253-259):
every pending input message is deserialized and, when the client holds a
lobby entry, attached to its entity as a deferred PlayerInput insertion. -/
def drainInputs (lobby : List (Nat × Nat)) (c : Nat) (msgs : List PlayerInput) : List Cmd :=
  match lookupBox lobby c with
  | some e => msgs.map (fun m => Cmd.insertInput e m)
  | none => []

/-- The channel-2 handler for one received ClientMessages value (server.rs
lines 263-271): a PlayerCheckResponse is pushed onto the CheckResponses
vector only when the claimed id equals the authenticated sender id. -/
def handle_client_message (client_id : Nat) (responses : List Nat)
    (m : ClientMessages) : List Nat :=
  match m with
  | ClientMessages.PlayerCheckResponse id =>
    if id = client_id then responses ++ [id] else responses
  | ClientMessages.AuthenticationRequest _ => responses

/-- The channel-2 drain loop for one client. -/
def drainChecks (c : Nat) (responses : List Nat) (msgs : List ClientMessages) : List Nat :=
  msgs.foldl (handle_client_message c) responses

/-- Pending per-client message queues for one tick. -/
structure TickInput where
  events : List ServerEvent
  inbox0 : List (Nat × List PlayerInput)
  inbox2 : List (Nat × List ClientMessages)
deriving Repr

/-- Messages pending for client `c` on a channel this tick. -/
def getMsgs {α : Type} (inbox : List (Nat × List α)) (c : Nat) : List α :=
  (lookupBox inbox c).getD []

/-- The `for client_id in server.clients_id()` receive loop: accumulates
the deferred PlayerInput insertions and the CheckResponses pushes.  The
lobby is only read inside this loop, so it is passed as a constant. -/
def receiveLoop (lobby : List (Nat × Nat)) (inbox0 : List (Nat × List PlayerInput))
    (inbox2 : List (Nat × List ClientMessages)) :
    List Cmd × List Nat → List Nat → List Cmd × List Nat
  | acc, [] => acc
  | acc, c :: rest =>
    receiveLoop lobby inbox0 inbox2
      (acc.1 ++ drainInputs lobby c (getMsgs inbox0 c),
       drainChecks c acc.2 (getMsgs inbox2 c)) rest

/-- server_update_system (server.rs lines 174-274): process the connection
events, then drain every connected client's channel-0 and channel-2 queues,
then (end of stage) apply the deferred commands to the world. -/
def server_update_system (s : ServerState) (inp : TickInput) : ServerState :=
  let view := freePaddles s.paddles
  let s1c := processEvents view (s, []) inp.events
  let cr := receiveLoop s1c.1.lobby inp.inbox0 inp.inbox2 (s1c.2, s1c.1.responses) s1c.1.connected
  { s1c.1 with responses := cr.2, paddles := applyCmds s1c.1.paddles cr.1 }

/-- resetter (server.rs lines 142-170): consume the one-shot ResetDue flag,
recenter the paddles, zero the ball (the source assigns
BALL_STARTING_POSITION.x, which is 0.0, to both coordinates), reset the
RespawnTimer and let the game start. -/
def resetter (s : ServerState) : ServerState :=
  if !s.resetDue then s
  else
    { s with resetDue := false
           , paddles := s.paddles.map (fun p => { p with y := 0 })
           , ballVel := (0, 0)
           , ballLoc := (0, 0)
           , respawnElapsed := 0
           , playing := true }

/-- The ReconnectTimer is a non-repeating 3-second Bevy Timer; `tick` is a
no-op while paused or after finishing, otherwise it advances the elapsed
time (saturating at the duration) and reports `just_finished`. Times are in
milliseconds. -/
def timerTick (s : ServerState) (delta : Nat) : ServerState × Bool :=
  if s.timerPaused then (s, false)
  else if s.timerFinished then (s, false)
  else
    ({ s with timerElapsed := min (s.timerElapsed + delta) 3000
            , timerFinished := decide (3000 ≤ s.timerElapsed + delta) },
     decide (3000 ≤ s.timerElapsed + delta))

/-- One iteration of the `for _ in renet_error.iter()` loop of
panic_on_error_system (server.rs lines 314-341).  While idle (timer paused
and latch off) the PlayerCheck probe is broadcast on channel 0 and the
collection window is armed; otherwise the timer is ticked by the frame
delta and, on expiry, every connected client absent from CheckResponses is
disconnected, the responses are cleared and the cycle is disarmed. -/
def processError (delta : Nat) (s : ServerState) : ServerState :=
  if s.timerPaused && !s.latch then
    { s with outbox := s.outbox ++ broadcastMsg s.connected 0 ServerMessages.PlayerCheck
           , timerPaused := false
           , latch := true }
  else
    let tf := timerTick s delta
    if tf.2 then
      { tf.1 with
          connected := tf.1.connected.filter (fun c => tf.1.responses.contains c),
          responses := [],
          timerElapsed := 0,
          timerFinished := false,
          timerPaused := true,
          latch := false }
    else tf.1

/-- panic_on_error_system: the loop body runs once per RenetError event
received this frame, each time with the same frame delta. -/
def panic_on_error_system (s : ServerState) : Nat → Nat → ServerState
  | 0, _ => s
  | n + 1, delta => panic_on_error_system (processError delta s) n delta

/-- The external stimulus of one server frame: the connection events, the
pending channel queues, the number of RenetError events and the frame
delta in milliseconds. -/
structure FrameInput where
  events : List ServerEvent
  inbox0 : List (Nat × List PlayerInput)
  inbox2 : List (Nat × List ClientMessages)
  errors : Nat
  delta : Nat
deriving Repr

/-- One frame of the server systems that touch the modelled state:
server_update_system, then resetter, then panic_on_error_system. -/
def serverFrame (s : ServerState) (f : FrameInput) : ServerState :=
  panic_on_error_system (resetter (server_update_system s ⟨f.events, f.inbox0, f.inbox2⟩))
    f.errors f.delta

/-- A run of consecutive frames. -/
def runFrames (s : ServerState) (fs : List FrameInput) : ServerState :=
  fs.foldl serverFrame s

/-- The server world right after setup_server (common_game.rs lines
514-561): the Left paddle spawned first, then the Right paddle, no Player
markers, empty lobby, scores zero, not playing, the ReconnectTimer paused
with its latch off.  The ball's float position/velocity are abstracted as
parameters (none of the modelled systems reads them). -/
def initServer (bl bv : Int × Int) : ServerState :=
  { paddles := [⟨0, PlayerSide.Left, false, none, 0⟩, ⟨1, PlayerSide.Right, false, none, 0⟩]
  , lobby := []
  , connected := []
  , playing := false
  , scoreleft := 0
  , scoreright := 0
  , resetDue := false
  , resetRaises := 0
  , responses := []
  , outbox := []
  , ballLoc := bl
  , ballVel := bv
  , respawnElapsed := 0
  , timerElapsed := 0
  , timerPaused := true
  , timerFinished := false
  , latch := false }

/-- Rust `usize as i32` (truncate to 32 bits, reinterpret as signed). -/
def usize_as_i32 (n : Nat) : Int :=
  let r : Nat := n % 2 ^ 32
  if r < 2 ^ 31 then (r : Int) else (r : Int) - 2 ^ 32

/-- Rust `i32 as usize` (sign-extend to 64 bits, reinterpret as unsigned). -/
def i32_as_usize (x : Int) : Nat :=
  (x % 2 ^ 64).toNat

/-- The x coordinate each paddle is spawned at and keeps for its lifetime
(LEFT_WALL + GAP_BETWEEN_PADDLE_AND_WALL and its mirror image). -/
def paddleX : PlayerSide → Int
  | PlayerSide.Left => -390
  | PlayerSide.Right => 390

/-- get_gamestate (common_game.rs lines 330-360): sample the full snapshot,
including the Playing flag. -/
def get_gamestate (s : ServerState) : GameState :=
  { ball_loc := s.ballLoc
  , ball_velocity := s.ballVel
  , paddle_l_loc := s.paddles.foldl
      (fun acc p => if p.side = PlayerSide.Left then (paddleX p.side, p.y) else acc)
      (paddleX PlayerSide.Left, 0)
  , paddle_r_loc := s.paddles.foldl
      (fun acc p => if p.side = PlayerSide.Right then (paddleX p.side, p.y) else acc)
      (paddleX PlayerSide.Right, 0)
  , score_l := usize_as_i32 s.scoreleft
  , score_r := usize_as_i32 s.scoreright
  , playing := s.playing }

/-- The client-side state touched by set_gamestate: the ball, the paddle
entities (side and position, in spawn order), the Scoreboard and the
Playing flag. -/
structure ClientState where
  ballLoc : Int × Int
  ballVel : Int × Int
  paddles : List (PlayerSide × Int × Int)
  scoreleft : Nat
  scoreright : Nat
  playing : Bool
deriving DecidableEq, Repr

/-- The per-paddle assignment inside set_gamestate's paddle loop: the new
paddle value depends only on the paddle's side. -/
def sideApply (g : GameState) (side : PlayerSide) : PlayerSide × Int × Int :=
  match side with
  | PlayerSide.Left => (side, g.paddle_l_loc)
  | PlayerSide.Right => (side, g.paddle_r_loc)

/-- set_gamestate (common_game.rs lines 364-390): overwrite the ball, every
paddle, both scores and the Playing flag with the snapshot's values. -/
def set_gamestate (s : ClientState) (g : GameState) : ClientState :=
  { ballLoc := g.ball_loc
  , ballVel := g.ball_velocity
  , paddles := s.paddles.map (fun pr => sideApply g pr.1)
  , scoreleft := i32_as_usize g.score_l
  , scoreright := i32_as_usize g.score_r
  , playing := g.playing }

/-- The client's channel-1 drain loop (client.rs lines 109-113): every
pending snapshot is applied, in arrival order. -/
def client_sync_snapshots (s : ClientState) (msgs : List GameState) : ClientState :=
  msgs.foldl set_gamestate s

/-!
Observer definitions used to state the verified properties: component
lookups on the paddle entities, the slots bound by the lobby, the
well-formedness invariant of the server world, and event counters.
-/

/-- Scenario A, first tick: from the fresh server world, client 100
connects (alone on its tick), then the resetter system runs. -/
def scenarioTick1 (bl bv : Int × Int) : ServerState :=
  resetter (server_update_system (initServer bl bv)
    ⟨[ServerEvent.ClientConnected 100], [], []⟩)

/-- Scenario A, second tick: client 200 connects on the next tick, then
the resetter system runs. -/
def scenarioTick2 (bl bv : Int × Int) : ServerState :=
  resetter (server_update_system (scenarioTick1 bl bv)
    ⟨[ServerEvent.ClientConnected 200], [], []⟩)

/-- Whether some paddle entity with the given id carries the Player marker. -/
def hasPlayerAt : List Paddle → Nat → Bool
  | [], _ => false
  | p :: ps, e => if p.entity = e then (p.hasPlayer || hasPlayerAt ps e) else hasPlayerAt ps e

/-- Whether a paddle entity with the given id exists. -/
def containsEntity : List Paddle → Nat → Bool
  | [], _ => false
  | p :: ps, e => if p.entity = e then true else containsEntity ps e

/-- The PlayerInput component attached to the given entity, if any. -/
def inputAt : List Paddle → Nat → Option PlayerInput
  | [], _ => none
  | p :: ps, e => if p.entity = e then p.input else inputAt ps e

/-- The PaddleSide component of the given entity, if it exists. -/
def sideAt : List Paddle → Nat → Option PlayerSide
  | [], _ => none
  | p :: ps, e => if p.entity = e then some p.side else sideAt ps e

/-- The slot (paddle side) bound by each lobby entry, in lobby order. -/
def boundSides (s : ServerState) : List (Option PlayerSide) :=
  s.lobby.map (fun pr => sideAt s.paddles pr.2)

/-- The entity a Player-marker command targets, if it is one. -/
def playerCmdEntity : Cmd → Option Nat
  | Cmd.insertPlayer e => some e
  | Cmd.removePlayer e => some e
  | Cmd.insertInput _ _ => none
  | Cmd.removeInput _ => none

/-- The entity a PlayerInput command targets, if it is one. -/
def inputCmdEntity : Cmd → Option Nat
  | Cmd.insertPlayer _ => none
  | Cmd.removePlayer _ => none
  | Cmd.insertInput e _ => some e
  | Cmd.removeInput e => some e

/-- The fixed two-paddle arena shape produced by setup_server: exactly the
entities 0 (Left) and 1 (Right), in spawn order. -/
def paddleBaseB : List Paddle → Bool
  | [p0, p1] =>
    decide (p0.entity = 0) && decide (p0.side = PlayerSide.Left) &&
    decide (p1.entity = 1) && decide (p1.side = PlayerSide.Right)
  | _ => false

/-- Well-formedness of the server world: the fixed arena shape, no
duplicated lobby keys or bound entities, and every lobby entry bound to an
existing paddle entity that carries the Player marker. -/
def ServerInv (s : ServerState) : Prop :=
  paddleBaseB s.paddles = true ∧
  (s.lobby.map Prod.fst).Nodup ∧
  (s.lobby.map Prod.snd).Nodup ∧
  ∀ pr ∈ s.lobby, pr.2 < 2 ∧ hasPlayerAt s.paddles pr.2 = true

/-- Mid-run well-formedness of the event loop: the world (paddle list) is
still the one the system started with, lobby keys and bound entities are
duplicate-free, and every lobby entry is bound to an entity < 2 whose
paddle will carry the Player marker once the pending commands apply. -/
def EvInv (P : List Paddle) (sc : ServerState × List Cmd) : Prop :=
  sc.1.paddles = P ∧
  (sc.1.lobby.map Prod.fst).Nodup ∧
  (sc.1.lobby.map Prod.snd).Nodup ∧
  ∀ pr ∈ sc.1.lobby, pr.2 < 2 ∧ hasPlayerAt (applyCmds P sc.2) pr.2 = true

/-- Every paddle in the free-paddle query snapshot is still effectively
free under the pending commands (holds until the first admission of the
run consumes the stale snapshot). -/
def ViewFree (P : List Paddle) (view : List (Nat × PlayerSide)) (cmds : List Cmd) : Prop :=
  ∀ pe ∈ view, hasPlayerAt (applyCmds P cmds) pe.1 = false

/-- The free-paddle query snapshot only names existing entities, all < 2. -/
def ViewOK (P : List Paddle) (view : List (Nat × PlayerSide)) : Prop :=
  ∀ pe ∈ view, pe.1 < 2 ∧ containsEntity P pe.1 = true

/-- Number of ClientConnected events in a tick's event batch. -/
def connCount (evs : List ServerEvent) : Nat :=
  (evs.filter (fun ev => match ev with
    | ServerEvent.ClientConnected _ => true
    | ServerEvent.ClientDisconnected _ => false)).length

/-- The deferred PlayerInput insertions produced by the whole receive loop,
client by client. -/
def allInputCmds (lobby : List (Nat × Nat)) (inbox0 : List (Nat × List PlayerInput)) :
    List Nat → List Cmd
  | [] => []
  | c :: rest => drainInputs lobby c (getMsgs inbox0 c) ++ allInputCmds lobby inbox0 rest

/-!
Theorems.  Helper lemmas first, then one theorem per verified claim (plus
witnesses and counterexamples).
-/

theorem sideApply_fst (g : GameState) (side : PlayerSide) : (sideApply g side).1 = side := by
  cases side <;> rfl

theorem set_gamestate_sides (s : ClientState) (g : GameState) :
    (set_gamestate s g).paddles.map Prod.fst = s.paddles.map Prod.fst := by
  simp only [set_gamestate, List.map_map]
  have h : (Prod.fst ∘ fun pr : PlayerSide × Int × Int => sideApply g pr.1) =
      (Prod.fst : PlayerSide × Int × Int → PlayerSide) := by
    funext pr
    simp [Function.comp, sideApply_fst]
  rw [h]

theorem sideApply_map_of_fst_eq (g : GameState) :
    ∀ l l' : List (PlayerSide × Int × Int), l.map Prod.fst = l'.map Prod.fst →
      l.map (fun pr => sideApply g pr.1) = l'.map (fun pr => sideApply g pr.1) := by
  intro l
  induction l with
  | nil =>
    intro l' h
    cases l' with
    | nil => rfl
    | cons b t => simp at h
  | cons a t ih =>
    intro l' h
    cases l' with
    | nil => simp at h
    | cons b t2 =>
      simp only [List.map_cons, List.cons.injEq] at h ⊢
      exact ⟨by rw [h.1], ih t2 h.2⟩

theorem set_gamestate_overwrites (s t : ClientState) (g : GameState)
    (h : s.paddles.map Prod.fst = t.paddles.map Prod.fst) :
    set_gamestate s g = set_gamestate t g := by
  simp only [set_gamestate, ClientState.mk.injEq, and_true, true_and]
  exact sideApply_map_of_fst_eq g s.paddles t.paddles h

theorem client_sync_sides (s : ClientState) (msgs : List GameState) :
    (client_sync_snapshots s msgs).paddles.map Prod.fst = s.paddles.map Prod.fst := by
  induction msgs generalizing s with
  | nil => rfl
  | cons g rest ih =>
    calc (client_sync_snapshots (set_gamestate s g) rest).paddles.map Prod.fst
        = (set_gamestate s g).paddles.map Prod.fst := ih (set_gamestate s g)
      _ = s.paddles.map Prod.fst := set_gamestate_sides s g

theorem client_sync_last_wins (s : ClientState) (l : List GameState) (g : GameState) :
    client_sync_snapshots s (l ++ [g]) = set_gamestate s g := by
  have h1 : client_sync_snapshots s (l ++ [g]) =
      set_gamestate (client_sync_snapshots s l) g := by
    simp [client_sync_snapshots, List.foldl_append]
  rw [h1]
  exact set_gamestate_overwrites (client_sync_snapshots s l) s g (client_sync_sides s l)

theorem i32_as_usize_exact (x : Int) (h0 : 0 ≤ x) (h1 : x < 2 ^ 31) :
    (i32_as_usize x : Int) = x := by
  unfold i32_as_usize
  have hlt : x < 2 ^ 64 := by omega
  rw [Int.emod_eq_of_lt h0 (by omega)]
  exact Int.toNat_of_nonneg h0

/-- C7: draining the client's channel-1 queue applies every pending
snapshot in order, and the resulting client state is a full overwrite by
the most recently received snapshot: ball position and velocity, both
paddle positions, both scores (through the source's `as usize` conversion,
which is the identity on any representable non-negative score) and the
playing flag all come from that snapshot, and the result does not depend on
the previous client state at all (beyond the fixed paddle-side layout). -/
theorem client_applies_latest_snapshot_fully (s : ClientState)
    (msgs l : List GameState) (g : GameState) (h : msgs = l ++ [g]) :
    client_sync_snapshots s msgs = set_gamestate s g ∧
    (set_gamestate s g).ballLoc = g.ball_loc ∧
    (set_gamestate s g).ballVel = g.ball_velocity ∧
    (set_gamestate s g).paddles = s.paddles.map (fun pr => sideApply g pr.1) ∧
    (set_gamestate s g).scoreleft = i32_as_usize g.score_l ∧
    (set_gamestate s g).scoreright = i32_as_usize g.score_r ∧
    (set_gamestate s g).playing = g.playing ∧
    (0 ≤ g.score_l → g.score_l < 2 ^ 31 → ((set_gamestate s g).scoreleft : Int) = g.score_l) ∧
    (0 ≤ g.score_r → g.score_r < 2 ^ 31 → ((set_gamestate s g).scoreright : Int) = g.score_r) ∧
    (∀ t : ClientState, t.paddles.map Prod.fst = s.paddles.map Prod.fst →
      set_gamestate t g = set_gamestate s g) := by
  subst h
  refine ⟨client_sync_last_wins s l g, rfl, rfl, rfl, rfl, rfl, rfl, ?_, ?_, ?_⟩
  · intro ha hb
    exact i32_as_usize_exact g.score_l ha hb
  · intro ha hb
    exact i32_as_usize_exact g.score_r ha hb
  · intro t ht
    exact set_gamestate_overwrites t s g ht

/-- Witness for C7 at a concrete input: two pending snapshots, the second
one wins and fully determines the state. -/
theorem client_applies_latest_snapshot_fully_witness :
    ([⟨(1, 1), (2, 2), (3, 3), (4, 4), 5, 6, false⟩,
      ⟨(7, 8), (9, 10), (11, 12), (13, 14), 2, 3, true⟩] =
      [(⟨(1, 1), (2, 2), (3, 3), (4, 4), 5, 6, false⟩ : GameState)] ++
        [⟨(7, 8), (9, 10), (11, 12), (13, 14), 2, 3, true⟩]) ∧
    client_sync_snapshots
        ⟨(0, 0), (0, 0), [(PlayerSide.Left, -390, 0), (PlayerSide.Right, 390, 0)], 9, 9, false⟩
        [⟨(1, 1), (2, 2), (3, 3), (4, 4), 5, 6, false⟩,
         ⟨(7, 8), (9, 10), (11, 12), (13, 14), 2, 3, true⟩] =
      set_gamestate
        ⟨(0, 0), (0, 0), [(PlayerSide.Left, -390, 0), (PlayerSide.Right, 390, 0)], 9, 9, false⟩
        ⟨(7, 8), (9, 10), (11, 12), (13, 14), 2, 3, true⟩ :=
  ⟨by decide,
   (client_applies_latest_snapshot_fully
     ⟨(0, 0), (0, 0), [(PlayerSide.Left, -390, 0), (PlayerSide.Right, 390, 0)], 9, 9, false⟩
     _ [⟨(1, 1), (2, 2), (3, 3), (4, 4), 5, 6, false⟩]
     ⟨(7, 8), (9, 10), (11, 12), (13, 14), 2, 3, true⟩ rfl).1⟩

/-- C8: applying the same snapshot twice in a row yields exactly the state
obtained by applying it once (set_gamestate is idempotent). -/
theorem set_gamestate_idempotent (s : ClientState) (g : GameState) :
    set_gamestate (set_gamestate s g) g = set_gamestate s g :=
  set_gamestate_overwrites (set_gamestate s g) s g (set_gamestate_sides s g)

/-- C4: a channel-2 check-response is accepted into the collected set
exactly when the claimed id equals the authenticated sender's id; a
response claiming a different client's id leaves the collected set
untouched and in particular does not protect that other client. -/
theorem check_response_requires_matching_sender (responses : List Nat) (c id : Nat) :
    (handle_client_message c responses (ClientMessages.PlayerCheckResponse id) =
        responses ++ [id] ↔ id = c) ∧
    (id ≠ c → handle_client_message c responses (ClientMessages.PlayerCheckResponse id) =
        responses) ∧
    (id ≠ c → id ∉ responses →
      id ∉ handle_client_message c responses (ClientMessages.PlayerCheckResponse id)) := by
  by_cases h : id = c
  · refine ⟨by simp [handle_client_message, h], fun hn => absurd h hn, fun hn => absurd h hn⟩
  · refine ⟨?_, fun _ => by simp [handle_client_message, h], fun _ hm => by
      simpa [handle_client_message, h] using hm⟩
    simp only [handle_client_message, if_neg h]
    constructor
    · intro hEq
      have := congrArg List.length hEq
      simp at this
    · intro hEq
      exact absurd hEq h

/-- Witness for C4 at concrete inputs (sender 3, claimed ids 3 and 4). -/
theorem check_response_requires_matching_sender_witness :
    ((handle_client_message 3 [5] (ClientMessages.PlayerCheckResponse 4) =
        [5] ++ [4] ↔ (4 : Nat) = 3) ∧
     ((4 : Nat) ≠ 3 → handle_client_message 3 [5] (ClientMessages.PlayerCheckResponse 4) = [5]) ∧
     ((4 : Nat) ≠ 3 → (4 : Nat) ∉ [(5 : Nat)] →
       (4 : Nat) ∉ handle_client_message 3 [5] (ClientMessages.PlayerCheckResponse 4))) :=
  check_response_requires_matching_sender [5] 3 4

/-- C3 (counterexample to the claim as stated): from the idle liveness
state with two active sessions, the first transport-error signal makes the
server broadcast the PlayerCheck probe on channel 0 — every message it
emits is on channel 0 and none is on channel 2, contradicting the claim
that the probe is broadcast on channel 2. -/
theorem probe_channel_claim_cex :
    (processError 16 { (initServer (0, 0) (0, 0)) with connected := [100, 200] }).outbox =
      [(100, 0, ServerMessages.PlayerCheck), (200, 0, ServerMessages.PlayerCheck)] ∧
    (∀ m ∈ (processError 16 { (initServer (0, 0) (0, 0)) with connected := [100, 200] }).outbox,
      m.2.1 = 0) ∧
    ¬ ∃ m ∈ (processError 16 { (initServer (0, 0) (0, 0)) with connected := [100, 200] }).outbox,
      m.2.1 = 2 := by
  decide

/-- C3 (amended): when the first transport-error signal arrives while the
liveness cycle is idle (timer paused, latch off), the server broadcasts the
PlayerCheck probe to every active session on channel 0 (the reliable
ordered notices channel — not channel 2; channel 2 only carries the
clients' check-responses back), and the cycle is armed. -/
theorem probe_broadcast_on_error_while_idle (s : ServerState) (delta : Nat)
    (hp : s.timerPaused = true) (hl : s.latch = false) :
    (processError delta s).outbox =
      s.outbox ++ broadcastMsg s.connected 0 ServerMessages.PlayerCheck ∧
    (∀ c ∈ s.connected, (c, 0, ServerMessages.PlayerCheck) ∈ (processError delta s).outbox) ∧
    (processError delta s).latch = true ∧
    (processError delta s).timerPaused = false := by
  have hcond : (s.timerPaused && !s.latch) = true := by rw [hp, hl]; rfl
  refine ⟨by simp [processError, hcond], ?_, by simp [processError, hcond],
    by simp [processError, hcond]⟩
  intro c hc
  simp only [processError, hcond, if_true]
  exact List.mem_append_right _ (List.mem_map.mpr ⟨c, hc, rfl⟩)

/-- Witness for the amended C3 at a concrete idle state. -/
theorem probe_broadcast_on_error_while_idle_witness :
    ({ (initServer (0, 0) (0, 0)) with connected := [7] } : ServerState).timerPaused = true ∧
    ({ (initServer (0, 0) (0, 0)) with connected := [7] } : ServerState).latch = false ∧
    (processError 5 { (initServer (0, 0) (0, 0)) with connected := [7] }).outbox =
      ({ (initServer (0, 0) (0, 0)) with connected := [7] } : ServerState).outbox ++
        broadcastMsg [7] 0 ServerMessages.PlayerCheck :=
  ⟨rfl, rfl,
   (probe_broadcast_on_error_while_idle
     { (initServer (0, 0) (0, 0)) with connected := [7] } 5 rfl rfl).1⟩

/-- C2 (counterexample to the claim as stated): the collection-window timer
is only ticked inside the transport-error event loop, so a cycle armed by a
single error signal never resolves if no further error signals arrive.
Here the probe is armed, then ten seconds of frames pass with no further
error events: far more than the 3-second window, yet both sessions are
still connected, the cycle is still armed (latch set, timer running but
never ticked) and no eviction has happened. -/
theorem liveness_window_claim_cex :
    (runFrames { (initServer (0, 0) (0, 0)) with connected := [100, 200] }
        ((⟨[], [], [], 1, 16⟩ : FrameInput) :: List.replicate 10 (⟨[], [], [], 0, 1000⟩ : FrameInput))).connected
      = [100, 200] ∧
    (runFrames { (initServer (0, 0) (0, 0)) with connected := [100, 200] }
        ((⟨[], [], [], 1, 16⟩ : FrameInput) :: List.replicate 10 (⟨[], [], [], 0, 1000⟩ : FrameInput))).latch
      = true ∧
    (runFrames { (initServer (0, 0) (0, 0)) with connected := [100, 200] }
        ((⟨[], [], [], 1, 16⟩ : FrameInput) :: List.replicate 10 (⟨[], [], [], 0, 1000⟩ : FrameInput))).timerElapsed
      = 0 ∧
    16 + 10 * 1000 > 3000 := by
  decide

/-- C2 (amended): provided transport-error signals keep arriving (the
window timer only advances while error events are being processed), the
first error event whose tick brings the armed collection window to its
3-second duration resolves the cycle: every connected client absent from
the collected-response set is disconnected, every client in the set is
retained, the set is cleared, and the timer returns to the idle
paused-and-unlatched state ready to re-arm. -/
theorem liveness_window_expiry_evicts (s : ServerState) (delta : Nat)
    (hp : s.timerPaused = false) (hl : s.latch = true)
    (hf : s.timerFinished = false) (hd : 3000 ≤ s.timerElapsed + delta) :
    (processError delta s).connected = s.connected.filter (fun c => s.responses.contains c) ∧
    (∀ c ∈ s.connected, s.responses.contains c = true → c ∈ (processError delta s).connected) ∧
    (∀ c ∈ s.connected, s.responses.contains c = false → c ∉ (processError delta s).connected) ∧
    (processError delta s).responses = [] ∧
    (processError delta s).timerPaused = true ∧
    (processError delta s).timerElapsed = 0 ∧
    (processError delta s).latch = false := by
  have hfin : decide (3000 ≤ s.timerElapsed + delta) = true := decide_eq_true hd
  have hred : processError delta s =
      { s with
          timerElapsed := 0, timerFinished := false, timerPaused := true, latch := false,
          connected := s.connected.filter (fun c => s.responses.contains c),
          responses := [] } := by
    simp [processError, timerTick, hp, hl, hf, hfin]
  rw [hred]
  refine ⟨rfl, ?_, ?_, rfl, rfl, rfl, rfl⟩
  · intro c hc hr
    exact List.mem_filter.mpr ⟨hc, hr⟩
  · intro c _ hr hmem
    have := (List.mem_filter.mp hmem).2
    rw [hr] at this
    exact Bool.false_ne_true this

/-- Witness for the amended C2: an armed window with one responder out of
two sessions, expiring on an error event 3 seconds later. -/
theorem liveness_window_expiry_evicts_witness :
    (({ (initServer (0, 0) (0, 0)) with
        connected := [100, 200], responses := [100],
        timerPaused := false, latch := true } : ServerState).timerPaused = false ∧
     ({ (initServer (0, 0) (0, 0)) with
        connected := [100, 200], responses := [100],
        timerPaused := false, latch := true } : ServerState).latch = true ∧
     3000 ≤ ({ (initServer (0, 0) (0, 0)) with
        connected := [100, 200], responses := [100],
        timerPaused := false, latch := true } : ServerState).timerElapsed + 3000) ∧
    (processError 3000 { (initServer (0, 0) (0, 0)) with
        connected := [100, 200], responses := [100],
        timerPaused := false, latch := true }).connected =
      [100, 200].filter (fun c => [100].contains c) :=
  ⟨⟨rfl, rfl, by decide⟩,
   (liveness_window_expiry_evicts
     { (initServer (0, 0) (0, 0)) with
        connected := [100, 200], responses := [100],
        timerPaused := false, latch := true } 3000 rfl rfl rfl (by decide)).1⟩

theorem removeKey_of_lookup_none {l : List (Nat × Nat)} {k : Nat}
    (h : lookupBox l k = none) : removeKey l k = l := by
  induction l with
  | nil => rfl
  | cons pr rest ih =>
    by_cases hk : pr.1 = k
    · simp [lookupBox, hk] at h
    · simp only [lookupBox, if_neg hk] at h
      simp [removeKey, hk, ih h]

theorem processEvent_disc_lobby (view : List (Nat × PlayerSide)) (s : ServerState)
    (cmds : List Cmd) (id : Nat) :
    (processEvent view (s, cmds) (ServerEvent.ClientDisconnected id)).1.lobby =
      removeKey s.lobby id := by
  simp only [processEvent]
  split <;> rfl

theorem processEvent_disc_playing (view : List (Nat × PlayerSide)) (s : ServerState)
    (cmds : List Cmd) (id : Nat) (h : (removeKey s.lobby id).length ≤ 2) :
    (processEvent view (s, cmds) (ServerEvent.ClientDisconnected id)).1.playing = false ∧
    (processEvent view (s, cmds) (ServerEvent.ClientDisconnected id)).1.scoreleft = 0 ∧
    (processEvent view (s, cmds) (ServerEvent.ClientDisconnected id)).1.scoreright = 0 := by
  simp only [processEvent]
  split
  · exact ⟨rfl, rfl, rfl⟩
  · next hno => exact absurd h hno

/-- C5: whenever processing a ClientDisconnected event leaves the lobby
with at most one bound slot, the Playing flag is cleared and both scores
are zeroed, regardless of their previous values.  (The source guards this
with `len() <= 2`, which in particular covers the claimed `≤ 1` case.) -/
theorem disconnect_low_lobby_resets (view : List (Nat × PlayerSide)) (s : ServerState)
    (cmds : List Cmd) (id : Nat)
    (h : ((processEvent view (s, cmds) (ServerEvent.ClientDisconnected id)).1.lobby).length ≤ 1) :
    (processEvent view (s, cmds) (ServerEvent.ClientDisconnected id)).1.playing = false ∧
    (processEvent view (s, cmds) (ServerEvent.ClientDisconnected id)).1.scoreleft = 0 ∧
    (processEvent view (s, cmds) (ServerEvent.ClientDisconnected id)).1.scoreright = 0 := by
  rw [processEvent_disc_lobby] at h
  exact processEvent_disc_playing view s cmds id (le_trans h (by omega))

/-- Witness for C5: the second of two players disconnects; the lobby drops
to one entry, playing is cleared and the 5:7 score is reset. -/
theorem disconnect_low_lobby_resets_witness :
    (((processEvent [] ({ (initServer (0, 0) (0, 0)) with
          lobby := [(100, 0), (200, 1)], connected := [100, 200],
          playing := true, scoreleft := 5, scoreright := 7 }, [])
        (ServerEvent.ClientDisconnected 200)).1.lobby).length ≤ 1) ∧
    (processEvent [] ({ (initServer (0, 0) (0, 0)) with
          lobby := [(100, 0), (200, 1)], connected := [100, 200],
          playing := true, scoreleft := 5, scoreright := 7 }, [])
        (ServerEvent.ClientDisconnected 200)).1.playing = false :=
  ⟨by decide,
   (disconnect_low_lobby_resets []
     { (initServer (0, 0) (0, 0)) with
          lobby := [(100, 0), (200, 1)], connected := [100, 200],
          playing := true, scoreleft := 5, scoreright := 7 } [] 200 (by decide)).1⟩

/-- C10: a ClientDisconnected event for a client that holds no lobby slot
(for example a third client that was rejected at admission) still clears
the Playing flag and zeroes both scores, even though both slots stay bound
to the two other clients: the source's reset guard `len() <= 2` fires on
every disconnect while the lobby has at most two entries, whether or not
the disconnecting client held a slot. -/
theorem slotless_disconnect_still_resets (view : List (Nat × PlayerSide)) (s : ServerState)
    (cmds : List Cmd) (id : Nat)
    (h0 : lookupBox s.lobby id = none) (h2 : s.lobby.length = 2) :
    (processEvent view (s, cmds) (ServerEvent.ClientDisconnected id)).1.playing = false ∧
    (processEvent view (s, cmds) (ServerEvent.ClientDisconnected id)).1.scoreleft = 0 ∧
    (processEvent view (s, cmds) (ServerEvent.ClientDisconnected id)).1.scoreright = 0 ∧
    (processEvent view (s, cmds) (ServerEvent.ClientDisconnected id)).1.lobby = s.lobby := by
  have hkeep : removeKey s.lobby id = s.lobby := removeKey_of_lookup_none h0
  have hlen : (removeKey s.lobby id).length ≤ 2 := by rw [hkeep]; omega
  obtain ⟨hA, hB, hC⟩ := processEvent_disc_playing view s cmds id hlen
  exact ⟨hA, hB, hC, by rw [processEvent_disc_lobby, hkeep]⟩

/-- Witness for C10: the rejected third client (id 300) disconnects while
100 and 200 hold the two slots mid-game; the game is paused and the score
wiped although both slots remain bound. -/
theorem slotless_disconnect_still_resets_witness :
    (lookupBox ([(100, 0), (200, 1)] : List (Nat × Nat)) 300 = none ∧
     ([(100, 0), (200, 1)] : List (Nat × Nat)).length = 2) ∧
    ((processEvent [] ({ (initServer (0, 0) (0, 0)) with
          lobby := [(100, 0), (200, 1)], connected := [100, 200],
          playing := true, scoreleft := 5, scoreright := 7 }, [])
        (ServerEvent.ClientDisconnected 300)).1.playing = false) :=
  ⟨⟨by decide, by decide⟩,
   (slotless_disconnect_still_resets []
     { (initServer (0, 0) (0, 0)) with
          lobby := [(100, 0), (200, 1)], connected := [100, 200],
          playing := true, scoreleft := 5, scoreright := 7 } [] 300 (by decide) (by decide)).1⟩

set_option maxHeartbeats 2000000 in
/-- C6: from the empty lobby, client 100 connecting and then client 200
connecting on a later tick get the Left and the Right slot respectively
(the free-paddle query yields paddles in spawn order: Left first); each is
sent a channel-0 connect notice about the other; the one-shot ResetDue flag
is raised exactly once over the two admissions — namely when the second
slot becomes occupied — and after the resetter system consumes it the
Playing flag is true.  The ball abstraction parameters are universally
quantified: the scenario does not depend on them. -/
theorem scenario_two_sequential_connects (bl bv : Int × Int) :
    (scenarioTick1 bl bv).lobby = [(100, 0)] ∧
    (scenarioTick2 bl bv).lobby = [(100, 0), (200, 1)] ∧
    sideAt (scenarioTick2 bl bv).paddles 0 = some PlayerSide.Left ∧
    sideAt (scenarioTick2 bl bv).paddles 1 = some PlayerSide.Right ∧
    (100, 0, ServerMessages.PlayerIsSide PlayerSide.Left) ∈ (scenarioTick2 bl bv).outbox ∧
    (200, 0, ServerMessages.PlayerIsSide PlayerSide.Right) ∈ (scenarioTick2 bl bv).outbox ∧
    (100, 0, ServerMessages.PlayerConnected 200) ∈ (scenarioTick2 bl bv).outbox ∧
    (200, 0, ServerMessages.PlayerConnected 100) ∈ (scenarioTick2 bl bv).outbox ∧
    (scenarioTick1 bl bv).resetRaises = 0 ∧
    (scenarioTick2 bl bv).resetRaises = 1 ∧
    (scenarioTick2 bl bv).resetDue = false ∧
    (scenarioTick1 bl bv).playing = false ∧
    (scenarioTick2 bl bv).playing = true := by
  have hout : (scenarioTick2 bl bv).outbox =
      [(100, 0, ServerMessages.PlayerIsSide PlayerSide.Left),
       (100, 0, ServerMessages.PlayerConnected 100),
       (200, 0, ServerMessages.PlayerConnected 100),
       (200, 0, ServerMessages.PlayerIsSide PlayerSide.Right),
       (100, 0, ServerMessages.PlayerConnected 200),
       (200, 0, ServerMessages.PlayerConnected 200)] := rfl
  refine ⟨rfl, rfl, rfl, rfl, ?_, ?_, ?_, ?_, rfl, rfl, rfl, rfl, rfl⟩ <;>
    rw [hout] <;> simp

/-- C1 (counterexample to the claim as stated): three clients connecting
within the same tick all see the same stale free-paddle query (the Player
marker insertions are deferred commands), so all three are admitted and
bound to the same Left paddle: the lobby ends the tick with 3 entries, all
three bound to the Left slot — the claimed 2-entry bound and Left/Right
distinctness both fail for same-tick batches. -/
theorem lobby_capacity_claim_cex :
    (serverFrame (initServer (0, 0) (0, 0))
        ⟨[ServerEvent.ClientConnected 1, ServerEvent.ClientConnected 2,
          ServerEvent.ClientConnected 3], [], [], 0, 0⟩).lobby.length = 3 ∧
    boundSides (serverFrame (initServer (0, 0) (0, 0))
        ⟨[ServerEvent.ClientConnected 1, ServerEvent.ClientConnected 2,
          ServerEvent.ClientConnected 3], [], [], 0, 0⟩) =
      [some PlayerSide.Left, some PlayerSide.Left, some PlayerSide.Left] := by
  decide

theorem applyCmd_entity (p : Paddle) (c : Cmd) : (applyCmd p c).entity = p.entity := by
  cases c <;> dsimp [applyCmd] <;> split <;> rfl

theorem applyCmd_side (p : Paddle) (c : Cmd) : (applyCmd p c).side = p.side := by
  cases c <;> dsimp [applyCmd] <;> split <;> rfl

theorem foldl_applyCmd_entity (cmds : List Cmd) (p : Paddle) :
    (cmds.foldl applyCmd p).entity = p.entity := by
  induction cmds generalizing p with
  | nil => rfl
  | cons c rest ih => rw [List.foldl_cons, ih, applyCmd_entity]

theorem foldl_applyCmd_side (cmds : List Cmd) (p : Paddle) :
    (cmds.foldl applyCmd p).side = p.side := by
  induction cmds generalizing p with
  | nil => rfl
  | cons c rest ih => rw [List.foldl_cons, ih, applyCmd_side]

theorem applyCmd_input_of_ne (p : Paddle) (c : Cmd)
    (h : inputCmdEntity c ≠ some p.entity) : (applyCmd p c).input = p.input := by
  cases c with
  | insertPlayer e => dsimp [applyCmd]; split <;> rfl
  | removePlayer e => dsimp [applyCmd]; split <;> rfl
  | insertInput e i =>
    dsimp [applyCmd]
    split
    · next he =>
        exact absurd ((by simp [inputCmdEntity, he]) :
          inputCmdEntity (Cmd.insertInput e i) = some p.entity) h
    · rfl
  | removeInput e =>
    dsimp [applyCmd]
    split
    · next he =>
        exact absurd ((by simp [inputCmdEntity, he]) :
          inputCmdEntity (Cmd.removeInput e) = some p.entity) h
    · rfl

theorem foldl_applyCmd_input (cmds : List Cmd) (p : Paddle)
    (h : ∀ c ∈ cmds, inputCmdEntity c ≠ some p.entity) :
    (cmds.foldl applyCmd p).input = p.input := by
  induction cmds generalizing p with
  | nil => rfl
  | cons c rest ih =>
    rw [List.foldl_cons]
    have he : (applyCmd p c).entity = p.entity := applyCmd_entity p c
    rw [ih (applyCmd p c) (fun d hd => by rw [he]; exact h d (List.mem_cons_of_mem c hd)),
      applyCmd_input_of_ne p c (h c (List.mem_cons_self c rest))]

theorem applyCmd_hasPlayer_of_ne (p : Paddle) (c : Cmd)
    (h : playerCmdEntity c ≠ some p.entity) : (applyCmd p c).hasPlayer = p.hasPlayer := by
  cases c with
  | insertInput e i => dsimp [applyCmd]; split <;> rfl
  | removeInput e => dsimp [applyCmd]; split <;> rfl
  | insertPlayer e =>
    dsimp [applyCmd]
    split
    · next he =>
        exact absurd ((by simp [playerCmdEntity, he]) :
          playerCmdEntity (Cmd.insertPlayer e) = some p.entity) h
    · rfl
  | removePlayer e =>
    dsimp [applyCmd]
    split
    · next he =>
        exact absurd ((by simp [playerCmdEntity, he]) :
          playerCmdEntity (Cmd.removePlayer e) = some p.entity) h
    · rfl

theorem foldl_applyCmd_hasPlayer (cmds : List Cmd) (p : Paddle)
    (h : ∀ c ∈ cmds, playerCmdEntity c ≠ some p.entity) :
    (cmds.foldl applyCmd p).hasPlayer = p.hasPlayer := by
  induction cmds generalizing p with
  | nil => rfl
  | cons c rest ih =>
    rw [List.foldl_cons]
    have he : (applyCmd p c).entity = p.entity := applyCmd_entity p c
    rw [ih (applyCmd p c) (fun d hd => by rw [he]; exact h d (List.mem_cons_of_mem c hd)),
      applyCmd_hasPlayer_of_ne p c (h c (List.mem_cons_self c rest))]

theorem applyCmds_append (P : List Paddle) (cmds l : List Cmd) :
    applyCmds P (cmds ++ l) = applyCmds (applyCmds P cmds) l := by
  simp [applyCmds, List.map_map, List.foldl_append, Function.comp]

theorem applyCmds_cons (p : Paddle) (P : List Paddle) (l : List Cmd) :
    applyCmds (p :: P) l = (l.foldl applyCmd p) :: applyCmds P l := rfl

theorem containsEntity_applyCmds (Q : List Paddle) (l : List Cmd) (e : Nat) :
    containsEntity (applyCmds Q l) e = containsEntity Q e := by
  induction Q with
  | nil => rfl
  | cons q Q ih =>
    rw [applyCmds_cons]
    dsimp [containsEntity]
    rw [foldl_applyCmd_entity]
    by_cases hq : q.entity = e
    · rw [if_pos hq, if_pos hq]
    · rw [if_neg hq, if_neg hq, ih]

theorem inputAt_applyCmds_untouched (Q : List Paddle) (l : List Cmd) (e : Nat)
    (h : ∀ c ∈ l, inputCmdEntity c ≠ some e) :
    inputAt (applyCmds Q l) e = inputAt Q e := by
  induction Q with
  | nil => rfl
  | cons q Q ih =>
    rw [applyCmds_cons]
    dsimp [inputAt]
    rw [foldl_applyCmd_entity]
    by_cases hq : q.entity = e
    · rw [if_pos hq, if_pos hq]
      exact foldl_applyCmd_input l q (fun c hc => by rw [hq]; exact h c hc)
    · rw [if_neg hq, if_neg hq, ih]

theorem foldl_insertInputs (l : List PlayerInput) (m : PlayerInput) (p : Paddle) (e : Nat)
    (hp : p.entity = e) :
    (((l ++ [m]).map (fun msg => Cmd.insertInput e msg)).foldl applyCmd p).input = some m := by
  induction l generalizing p with
  | nil =>
    show (applyCmd p (Cmd.insertInput e m)).input = some m
    dsimp [applyCmd]
    rw [if_pos hp]
  | cons a rest ih =>
    show ((((rest ++ [m]).map (fun msg => Cmd.insertInput e msg)).foldl applyCmd
      (applyCmd p (Cmd.insertInput e a))).input = some m)
    exact ih (applyCmd p (Cmd.insertInput e a)) (by rw [applyCmd_entity]; exact hp)

theorem inputAt_applyCmds_setLast (Q : List Paddle) (e : Nat)
    (l : List PlayerInput) (m : PlayerInput) (hE : containsEntity Q e = true) :
    inputAt (applyCmds Q ((l ++ [m]).map (fun msg => Cmd.insertInput e msg))) e = some m := by
  induction Q with
  | nil => exact absurd hE (by simp [containsEntity])
  | cons q Q ih =>
    rw [applyCmds_cons]
    dsimp [inputAt]
    rw [foldl_applyCmd_entity]
    by_cases hq : q.entity = e
    · rw [if_pos hq]
      exact foldl_insertInputs l m q e hq
    · rw [if_neg hq]
      dsimp [containsEntity] at hE
      rw [if_neg hq] at hE
      exact ih hE

theorem receiveLoop_fst (lobby : List (Nat × Nat)) (i0 : List (Nat × List PlayerInput))
    (i2 : List (Nat × List ClientMessages)) :
    ∀ (clients : List Nat) (acc : List Cmd × List Nat),
      (receiveLoop lobby i0 i2 acc clients).1 = acc.1 ++ allInputCmds lobby i0 clients := by
  intro clients
  induction clients with
  | nil => intro acc; simp [receiveLoop, allInputCmds]
  | cons c rest ih =>
    intro acc
    show (receiveLoop lobby i0 i2
      (acc.1 ++ drainInputs lobby c (getMsgs i0 c), drainChecks c acc.2 (getMsgs i2 c)) rest).1 = _
    rw [ih]
    show acc.1 ++ drainInputs lobby c (getMsgs i0 c) ++ allInputCmds lobby i0 rest =
      acc.1 ++ (drainInputs lobby c (getMsgs i0 c) ++ allInputCmds lobby i0 rest)
    rw [List.append_assoc]

theorem allInputCmds_append (lobby : List (Nat × Nat)) (i0 : List (Nat × List PlayerInput))
    (xs ys : List Nat) :
    allInputCmds lobby i0 (xs ++ ys) = allInputCmds lobby i0 xs ++ allInputCmds lobby i0 ys := by
  induction xs with
  | nil => rfl
  | cons x xs ih =>
    show drainInputs lobby x (getMsgs i0 x) ++ allInputCmds lobby i0 (xs ++ ys) = _
    rw [ih]
    show _ = drainInputs lobby x (getMsgs i0 x) ++ allInputCmds lobby i0 xs ++ _
    rw [List.append_assoc]

theorem mem_drainInputs (lobby : List (Nat × Nat)) (d : Nat) (msgs : List PlayerInput)
    (cmd : Cmd) (h : cmd ∈ drainInputs lobby d msgs) :
    ∃ ed, lookupBox lobby d = some ed ∧ inputCmdEntity cmd = some ed := by
  unfold drainInputs at h
  cases hl : lookupBox lobby d with
  | none => rw [hl] at h; exact absurd h (List.not_mem_nil cmd)
  | some ed =>
    rw [hl] at h
    obtain ⟨msg, _, hcmd⟩ := List.mem_map.mp h
    exact ⟨ed, rfl, by rw [← hcmd]; rfl⟩

theorem mem_allInputCmds (lobby : List (Nat × Nat)) (i0 : List (Nat × List PlayerInput))
    (clients : List Nat) (cmd : Cmd) (h : cmd ∈ allInputCmds lobby i0 clients) :
    ∃ d ∈ clients, cmd ∈ drainInputs lobby d (getMsgs i0 d) := by
  induction clients with
  | nil => exact absurd h (List.not_mem_nil cmd)
  | cons c rest ih =>
    rcases List.mem_append.mp h with h1 | h2
    · exact ⟨c, List.mem_cons_self c rest, h1⟩
    · obtain ⟨d, hd, hm⟩ := ih h2
      exact ⟨d, List.mem_cons_of_mem c hd, hm⟩

/-- C9: on a tick with no connection events, the whole channel-0 queue of
an active session is drained and, once the deferred commands are applied at
the end of the system, the PlayerInput component on the session's entity is
exactly the last input message received this tick — earlier queued samples
are superseded, not accumulated.  (The freshness hypotheses — distinct
session ids and no other session bound to the same entity — are exactly
what the lobby well-formedness invariant guarantees.) -/
theorem input_last_sample_wins (s : ServerState) (c e : Nat)
    (i0 : List (Nat × List PlayerInput)) (i2 : List (Nat × List ClientMessages))
    (l : List PlayerInput) (m : PlayerInput)
    (hc : c ∈ s.connected) (hnd : s.connected.Nodup)
    (hl : lookupBox s.lobby c = some e)
    (hother : ∀ d ∈ s.connected, d ≠ c → lookupBox s.lobby d ≠ some e)
    (hmsgs : getMsgs i0 c = l ++ [m])
    (hent : containsEntity s.paddles e = true) :
    inputAt (server_update_system s ⟨[], i0, i2⟩).paddles e = some m := by
  obtain ⟨pre, post, hsplit⟩ := List.append_of_mem hc
  have hpost : ∀ d ∈ post, d ≠ c := by
    intro d hd hdc
    rw [hsplit] at hnd
    have h2 := (List.nodup_append.mp hnd).2.1
    rw [List.nodup_cons] at h2
    exact h2.1 (hdc ▸ hd)
  have hdrain : drainInputs s.lobby c (getMsgs i0 c) =
      (l ++ [m]).map (fun msg => Cmd.insertInput e msg) := by
    rw [hmsgs]; unfold drainInputs; rw [hl]
  have hshape : (server_update_system s ⟨[], i0, i2⟩).paddles =
      applyCmds s.paddles (allInputCmds s.lobby i0 s.connected) := by
    show applyCmds s.paddles
      (receiveLoop s.lobby i0 i2 ([], s.responses) s.connected).1 = _
    rw [receiveLoop_fst, List.nil_append]
  rw [hshape, hsplit, allInputCmds_append]
  have hcons : allInputCmds s.lobby i0 (c :: post) =
      drainInputs s.lobby c (getMsgs i0 c) ++ allInputCmds s.lobby i0 post := rfl
  rw [hcons, ← List.append_assoc, applyCmds_append]
  rw [inputAt_applyCmds_untouched _ _ _ ?hpostskip]
  case hpostskip =>
    intro cmd hcmd
    obtain ⟨d, hd, hmem⟩ := mem_allInputCmds s.lobby i0 post cmd hcmd
    obtain ⟨ed, hlk, hce⟩ := mem_drainInputs s.lobby d _ cmd hmem
    have hdconn : d ∈ s.connected := by
      rw [hsplit]
      exact List.mem_append_right pre (List.mem_cons_of_mem c hd)
    intro hcontra
    rw [hce] at hcontra
    have : lookupBox s.lobby d = some e := by
      rw [hlk, Option.some_inj.mp hcontra]
    exact hother d hdconn (hpost d hd) this
  rw [applyCmds_append, hdrain]
  exact inputAt_applyCmds_setLast _ e l m
    (by rw [containsEntity_applyCmds]; exact hent)

/-- Witness for C9: session 7 bound to entity 1 sends two input samples in
one tick; the entity ends the tick carrying exactly the second sample. -/
theorem input_last_sample_wins_witness :
    ((7 : Nat) ∈ [(7 : Nat)] ∧ ([(7 : Nat)]).Nodup ∧
     lookupBox ([(7, 1)] : List (Nat × Nat)) 7 = some 1 ∧
     getMsgs ([(7, [⟨true, false, false, false⟩, ⟨false, true, false, false⟩])] :
         List (Nat × List PlayerInput)) 7 =
       [⟨true, false, false, false⟩] ++ [⟨false, true, false, false⟩]) ∧
    inputAt (server_update_system
        { (initServer (0, 0) (0, 0)) with
            connected := [7], lobby := [(7, 1)],
            paddles := [⟨0, PlayerSide.Left, false, none, 0⟩,
                        ⟨1, PlayerSide.Right, true, none, 0⟩] }
        ⟨[], [(7, [⟨true, false, false, false⟩, ⟨false, true, false, false⟩])], []⟩).paddles 1 =
      some ⟨false, true, false, false⟩ :=
  ⟨⟨by decide, by decide, by decide, by decide⟩,
   input_last_sample_wins
     { (initServer (0, 0) (0, 0)) with
         connected := [7], lobby := [(7, 1)],
         paddles := [⟨0, PlayerSide.Left, false, none, 0⟩,
                     ⟨1, PlayerSide.Right, true, none, 0⟩] }
     7 1 [(7, [⟨true, false, false, false⟩, ⟨false, true, false, false⟩])] []
     [⟨true, false, false, false⟩] ⟨false, true, false, false⟩
     (by decide) (by decide) (by decide) (by decide) (by decide) (by decide)⟩

theorem lookupBox_mem {l : List (Nat × Nat)} {k v : Nat}
    (h : lookupBox l k = some v) : (k, v) ∈ l := by
  induction l with
  | nil => simp [lookupBox] at h
  | cons pr rest ih =>
    by_cases hk : pr.1 = k
    · rw [lookupBox, if_pos hk] at h
      have : pr = (k, v) := by
        obtain ⟨a, b⟩ := pr
        simp at hk
        simp only [Option.some_inj] at h
        simp [hk, ← h]
      rw [← this]
      exact List.mem_cons_self pr rest
    · rw [lookupBox, if_neg hk] at h
      exact List.mem_cons_of_mem pr (ih h)

theorem mem_removeKey {l : List (Nat × Nat)} {k : Nat} {pr : Nat × Nat}
    (h : pr ∈ removeKey l k) : pr ∈ l ∧ pr.1 ≠ k := by
  induction l with
  | nil => simp [removeKey] at h
  | cons a rest ih =>
    by_cases ha : a.1 = k
    · rw [removeKey, if_pos ha] at h
      obtain ⟨h1, h2⟩ := ih h
      exact ⟨List.mem_cons_of_mem a h1, h2⟩
    · rw [removeKey, if_neg ha] at h
      rcases List.mem_cons.mp h with h1 | h1
      · exact ⟨h1 ▸ List.mem_cons_self a rest, h1 ▸ ha⟩
      · obtain ⟨h2, h3⟩ := ih h1
        exact ⟨List.mem_cons_of_mem a h2, h3⟩

theorem removeKey_sublist (l : List (Nat × Nat)) (k : Nat) :
    List.Sublist (removeKey l k) l := by
  induction l with
  | nil => exact List.Sublist.refl []
  | cons a rest ih =>
    by_cases ha : a.1 = k
    · rw [removeKey, if_pos ha]
      exact List.Sublist.cons a ih
    · rw [removeKey, if_neg ha]
      exact List.Sublist.cons₂ a ih

theorem values_inj {l : List (Nat × Nat)} (hv : (l.map Prod.snd).Nodup)
    {a b : Nat × Nat} (ha : a ∈ l) (hb : b ∈ l) (hab : a.2 = b.2) : a = b := by
  induction l with
  | nil => simp at ha
  | cons x rest ih =>
    rw [List.map_cons, List.nodup_cons] at hv
    rcases List.mem_cons.mp ha with ha1 | ha1 <;> rcases List.mem_cons.mp hb with hb1 | hb1
    · rw [ha1, hb1]
    · subst ha1
      exact absurd (by rw [hab]; exact List.mem_map_of_mem Prod.snd hb1) hv.1
    · subst hb1
      exact absurd (by rw [← hab]; exact List.mem_map_of_mem Prod.snd ha1) hv.1
    · exact ih hv.2 ha1 hb1

theorem mem_lobbyInsert {l : List (Nat × Nat)} {k v : Nat} {pr : Nat × Nat}
    (h : pr ∈ lobbyInsert l k v) : pr = (k, v) ∨ pr ∈ l := by
  induction l with
  | nil =>
    rw [lobbyInsert] at h
    rcases List.mem_cons.mp h with h1 | h1
    · exact Or.inl h1
    · simp at h1
  | cons a rest ih =>
    by_cases ha : a.1 = k
    · rw [lobbyInsert, if_pos ha] at h
      rcases List.mem_cons.mp h with h1 | h1
      · exact Or.inl h1
      · exact Or.inr (List.mem_cons_of_mem a h1)
    · rw [lobbyInsert, if_neg ha] at h
      rcases List.mem_cons.mp h with h1 | h1
      · exact Or.inr (h1 ▸ List.mem_cons_self a rest)
      · rcases ih h1 with h2 | h2
        · exact Or.inl h2
        · exact Or.inr (List.mem_cons_of_mem a h2)

theorem keys_lobbyInsert_mem {l : List (Nat × Nat)} {k v x : Nat}
    (h : x ∈ (lobbyInsert l k v).map Prod.fst) : x = k ∨ x ∈ l.map Prod.fst := by
  obtain ⟨pr, hpr, hx⟩ := List.mem_map.mp h
  rcases mem_lobbyInsert hpr with h1 | h1
  · left
    rw [← hx, h1]
  · right
    exact hx ▸ List.mem_map_of_mem Prod.fst h1

theorem keys_lobbyInsert_nodup {l : List (Nat × Nat)} {k v : Nat}
    (h : (l.map Prod.fst).Nodup) : ((lobbyInsert l k v).map Prod.fst).Nodup := by
  induction l with
  | nil => simp [lobbyInsert]
  | cons a rest ih =>
    rw [List.map_cons, List.nodup_cons] at h
    by_cases ha : a.1 = k
    · rw [lobbyInsert, if_pos ha, List.map_cons, List.nodup_cons]
      exact ⟨by rw [← ha]; exact h.1, h.2⟩
    · rw [lobbyInsert, if_neg ha, List.map_cons, List.nodup_cons]
      refine ⟨fun hmem => ?_, ih h.2⟩
      rcases keys_lobbyInsert_mem hmem with h1 | h1
      · exact ha h1
      · exact h.1 h1

theorem values_lobbyInsert_mem {l : List (Nat × Nat)} {k v x : Nat}
    (h : x ∈ (lobbyInsert l k v).map Prod.snd) : x = v ∨ x ∈ l.map Prod.snd := by
  obtain ⟨pr, hpr, hx⟩ := List.mem_map.mp h
  rcases mem_lobbyInsert hpr with h1 | h1
  · left
    rw [← hx, h1]
  · right
    exact hx ▸ List.mem_map_of_mem Prod.snd h1

theorem values_lobbyInsert_nodup {l : List (Nat × Nat)} {k v : Nat}
    (hv : (l.map Prod.snd).Nodup) (hfresh : ∀ pr ∈ l, pr.2 ≠ v) :
    ((lobbyInsert l k v).map Prod.snd).Nodup := by
  induction l with
  | nil => simp [lobbyInsert]
  | cons a rest ih =>
    rw [List.map_cons, List.nodup_cons] at hv
    by_cases ha : a.1 = k
    · rw [lobbyInsert, if_pos ha, List.map_cons, List.nodup_cons]
      refine ⟨fun hmem => ?_, hv.2⟩
      obtain ⟨pr, hpr, hx⟩ := List.mem_map.mp hmem
      exact hfresh pr (List.mem_cons_of_mem a hpr) hx
    · rw [lobbyInsert, if_neg ha, List.map_cons, List.nodup_cons]
      refine ⟨fun hmem => ?_, ih hv.2 (fun pr hpr => hfresh pr (List.mem_cons_of_mem a hpr))⟩
      rcases values_lobbyInsert_mem hmem with h1 | h1
      · exact hfresh a (List.mem_cons_self a rest) h1
      · exact hv.1 h1

theorem length_le_two_of_values (l : List (Nat × Nat))
    (hv : (l.map Prod.snd).Nodup) (hlt : ∀ pr ∈ l, pr.2 < 2) : l.length ≤ 2 := by
  match l with
  | [] => simp
  | [a] => simp
  | [a, b] => simp
  | a :: b :: c :: rest =>
    exfalso
    simp only [List.map_cons, List.nodup_cons, List.mem_cons, List.mem_map] at hv
    have hab : a.2 ≠ b.2 := fun h => hv.1 (Or.inl h)
    have hac : a.2 ≠ c.2 := fun h => hv.1 (Or.inr (Or.inl h))
    have hbc : b.2 ≠ c.2 := fun h => hv.2.1 (Or.inl h)
    have ha := hlt a (by simp)
    have hb := hlt b (by simp)
    have hc := hlt c (by simp)
    omega

theorem hasPlayerAt_applyCmds_untouched (Q : List Paddle) (l : List Cmd) (e : Nat)
    (h : ∀ c ∈ l, playerCmdEntity c ≠ some e) :
    hasPlayerAt (applyCmds Q l) e = hasPlayerAt Q e := by
  induction Q with
  | nil => rfl
  | cons q Q ih =>
    rw [applyCmds_cons]
    dsimp [hasPlayerAt]
    rw [foldl_applyCmd_entity]
    by_cases hq : q.entity = e
    · rw [if_pos hq, if_pos hq, ih,
        foldl_applyCmd_hasPlayer l q (fun c hc => by rw [hq]; exact h c hc)]
    · rw [if_neg hq, if_neg hq, ih]

theorem hasPlayerAt_insert_pair (Q : List Paddle) (e : Nat) (i : PlayerInput)
    (hE : containsEntity Q e = true) :
    hasPlayerAt (applyCmds Q [Cmd.insertPlayer e, Cmd.insertInput e i]) e = true := by
  induction Q with
  | nil => exact absurd hE (by simp [containsEntity])
  | cons q Q ih =>
    rw [applyCmds_cons]
    dsimp [hasPlayerAt]
    rw [applyCmd_entity, applyCmd_entity]
    dsimp [containsEntity] at hE
    by_cases hq : q.entity = e
    · rw [if_pos hq]
      have hset : (applyCmd (applyCmd q (Cmd.insertPlayer e)) (Cmd.insertInput e i)).hasPlayer
          = true := by
        dsimp [applyCmd]
        rw [if_pos hq]
        dsimp
        rw [if_pos hq]
      rw [hset, Bool.true_or]
    · rw [if_neg hq]
      rw [if_neg hq] at hE
      exact ih hE

theorem hasPlayerAt_remove_pair (Q : List Paddle) (e : Nat) :
    hasPlayerAt (applyCmds Q [Cmd.removePlayer e, Cmd.removeInput e]) e = false := by
  induction Q with
  | nil => rfl
  | cons q Q ih =>
    rw [applyCmds_cons]
    dsimp [hasPlayerAt]
    rw [applyCmd_entity, applyCmd_entity]
    by_cases hq : q.entity = e
    · rw [if_pos hq]
      have hset : (applyCmd (applyCmd q (Cmd.removePlayer e)) (Cmd.removeInput e)).hasPlayer
          = false := by
        dsimp [applyCmd]
        rw [if_pos hq]
        dsimp
        rw [if_pos hq]
      rw [hset, Bool.false_or, ih]
    · rw [if_neg hq]
      exact ih

theorem processEvent_disc_paddles (view : List (Nat × PlayerSide)) (sc : ServerState × List Cmd)
    (id : Nat) :
    (processEvent view sc (ServerEvent.ClientDisconnected id)).1.paddles = sc.1.paddles := by
  simp only [processEvent]
  first
  | rfl
  | split <;> rfl

theorem processEvent_disc_snd (view : List (Nat × PlayerSide)) (sc : ServerState × List Cmd)
    (id : Nat) :
    (processEvent view sc (ServerEvent.ClientDisconnected id)).2 =
      match lookupBox sc.1.lobby id with
      | some e => sc.2 ++ [Cmd.removePlayer e, Cmd.removeInput e]
      | none => sc.2 := by
  simp only [processEvent]

theorem EvInv_disc (P : List Paddle) (view : List (Nat × PlayerSide))
    (sc : ServerState × List Cmd) (id : Nat) (h : EvInv P sc) :
    EvInv P (processEvent view sc (ServerEvent.ClientDisconnected id)) := by
  obtain ⟨hP, hk, hv, hent⟩ := h
  refine ⟨by rw [processEvent_disc_paddles]; exact hP, ?_, ?_, ?_⟩
  · rw [processEvent_disc_lobby]
    exact List.Nodup.sublist (List.Sublist.map Prod.fst (removeKey_sublist sc.1.lobby id)) hk
  · rw [processEvent_disc_lobby]
    exact List.Nodup.sublist (List.Sublist.map Prod.snd (removeKey_sublist sc.1.lobby id)) hv
  · intro pr hpr
    rw [processEvent_disc_lobby] at hpr
    obtain ⟨hmem, hne⟩ := mem_removeKey hpr
    obtain ⟨hlt, hhp⟩ := hent pr hmem
    refine ⟨hlt, ?_⟩
    rw [processEvent_disc_snd]
    cases hlk : lookupBox sc.1.lobby id with
    | none => exact hhp
    | some e =>
      have hprne : pr.2 ≠ e := by
        intro hcontra
        have : pr = (id, e) := values_inj hv hmem (lookupBox_mem hlk) (by rw [hcontra])
        exact hne (by rw [this])
      rw [applyCmds_append]
      rw [hasPlayerAt_applyCmds_untouched]
      · exact hhp
      · intro c hc
        rcases List.mem_cons.mp hc with h1 | h1
        · rw [h1]
          exact fun hcon => hprne (Option.some_inj.mp hcon).symm
        · rcases List.mem_cons.mp h1 with h2 | h2
          · rw [h2]
            simp [playerCmdEntity]
          · simp at h2

theorem ViewFree_disc (P : List Paddle) (view : List (Nat × PlayerSide))
    (sc : ServerState × List Cmd) (id : Nat) (h : ViewFree P view sc.2) :
    ViewFree P view (processEvent view sc (ServerEvent.ClientDisconnected id)).2 := by
  intro pe hpe
  rw [processEvent_disc_snd]
  cases hlk : lookupBox sc.1.lobby id with
  | none => exact h pe hpe
  | some e =>
    rw [applyCmds_append]
    by_cases hq : pe.1 = e
    · rw [hq]
      exact hasPlayerAt_remove_pair _ e
    · rw [hasPlayerAt_applyCmds_untouched]
      · exact h pe hpe
      · intro c hc
        rcases List.mem_cons.mp hc with h1 | h1
        · rw [h1]
          exact fun hcon => hq (Option.some_inj.mp hcon).symm
        · rcases List.mem_cons.mp h1 with h2 | h2
          · rw [h2]
            simp [playerCmdEntity]
          · simp at h2

theorem EvInv_conn (P : List Paddle) (view : List (Nat × PlayerSide))
    (sc : ServerState × List Cmd) (id : Nat)
    (h : EvInv P sc) (hvf : ViewFree P view sc.2) (hvo : ViewOK P view) :
    EvInv P (processEvent view sc (ServerEvent.ClientConnected id)) := by
  obtain ⟨hP, hk, hv, hent⟩ := h
  cases view with
  | nil => exact ⟨hP, hk, hv, hent⟩
  | cons pe rest =>
    have hfree : hasPlayerAt (applyCmds P sc.2) pe.1 = false :=
      hvf pe (List.mem_cons_self pe rest)
    obtain ⟨hlt2, hcont⟩ := hvo pe (List.mem_cons_self pe rest)
    have hfresh : ∀ pr ∈ sc.1.lobby, pr.2 ≠ pe.1 := by
      intro pr hpr hcontra
      have hcon := (hent pr hpr).2
      rw [hcontra, hfree] at hcon
      exact Bool.false_ne_true hcon
    refine ⟨hP, ?_, ?_, ?_⟩
    · show ((lobbyInsert sc.1.lobby id pe.1).map Prod.fst).Nodup
      exact keys_lobbyInsert_nodup hk
    · show ((lobbyInsert sc.1.lobby id pe.1).map Prod.snd).Nodup
      exact values_lobbyInsert_nodup hv hfresh
    · intro pr hpr
      have hpr2 : pr ∈ lobbyInsert sc.1.lobby id pe.1 := hpr
      show pr.2 < 2 ∧ hasPlayerAt
        (applyCmds P (sc.2 ++ [Cmd.insertPlayer pe.1, Cmd.insertInput pe.1 {}])) pr.2 = true
      rcases mem_lobbyInsert hpr2 with hnew | hold
      · rw [hnew]
        refine ⟨hlt2, ?_⟩
        rw [applyCmds_append]
        exact hasPlayerAt_insert_pair _ pe.1 _
          (by rw [containsEntity_applyCmds]; exact hcont)
      · obtain ⟨hlt, hhp⟩ := hent pr hold
        refine ⟨hlt, ?_⟩
        rw [applyCmds_append, hasPlayerAt_applyCmds_untouched]
        · exact hhp
        · intro c hc
          rcases List.mem_cons.mp hc with h1 | h1
          · rw [h1]
            exact fun hcon => hfresh pr hold (Option.some_inj.mp hcon).symm
          · rcases List.mem_cons.mp h1 with h2 | h2
            · rw [h2]
              simp [playerCmdEntity]
            · simp at h2

theorem connCount_conn (id : Nat) (rest : List ServerEvent) :
    connCount (ServerEvent.ClientConnected id :: rest) = connCount rest + 1 := by
  simp [connCount, List.filter]

theorem connCount_disc (id : Nat) (rest : List ServerEvent) :
    connCount (ServerEvent.ClientDisconnected id :: rest) = connCount rest := by
  simp [connCount, List.filter]

theorem processEvents_disc_only (P : List Paddle) (view : List (Nat × PlayerSide)) :
    ∀ (evs : List ServerEvent) (sc : ServerState × List Cmd),
      connCount evs = 0 → EvInv P sc → EvInv P (processEvents view sc evs) := by
  intro evs
  induction evs with
  | nil => intro sc _ h; exact h
  | cons ev rest ih =>
    intro sc hcnt h
    cases ev with
    | ClientConnected id => rw [connCount_conn] at hcnt; omega
    | ClientDisconnected id =>
      rw [connCount_disc] at hcnt
      exact ih (processEvent view sc (ServerEvent.ClientDisconnected id)) hcnt
        (EvInv_disc P view sc id h)

theorem processEvents_one_conn (P : List Paddle) (view : List (Nat × PlayerSide))
    (hvo : ViewOK P view) :
    ∀ (evs : List ServerEvent) (sc : ServerState × List Cmd),
      connCount evs ≤ 1 → EvInv P sc → ViewFree P view sc.2 →
      EvInv P (processEvents view sc evs) := by
  intro evs
  induction evs with
  | nil => intro sc _ h _; exact h
  | cons ev rest ih =>
    intro sc hcnt h hvf
    cases ev with
    | ClientConnected id =>
      rw [connCount_conn] at hcnt
      exact processEvents_disc_only P view rest _ (by omega)
        (EvInv_conn P view sc id h hvf hvo)
    | ClientDisconnected id =>
      rw [connCount_disc] at hcnt
      exact ih (processEvent view sc (ServerEvent.ClientDisconnected id)) hcnt
        (EvInv_disc P view sc id h) (ViewFree_disc P view sc id hvf)

theorem applyCmds_nil (P : List Paddle) : applyCmds P [] = P := by
  simp [applyCmds]

theorem paddleBaseB_shape {P : List Paddle} (h : paddleBaseB P = true) :
    ∃ p0 p1, P = [p0, p1] ∧ p0.entity = 0 ∧ p0.side = PlayerSide.Left ∧
      p1.entity = 1 ∧ p1.side = PlayerSide.Right := by
  cases P with
  | nil => simp [paddleBaseB] at h
  | cons p0 t =>
    cases t with
    | nil => simp [paddleBaseB] at h
    | cons p1 t2 =>
      cases t2 with
      | nil =>
        simp only [paddleBaseB, Bool.and_eq_true, decide_eq_true_eq] at h
        exact ⟨p0, p1, rfl, h.1.1.1, h.1.1.2, h.1.2, h.2⟩
      | cons p2 t3 => simp [paddleBaseB] at h

theorem hasPlayerAt_pair_zero (p0 p1 : Paddle) (h00 : p0.entity = 0) (h11 : p1.entity = 1) :
    hasPlayerAt [p0, p1] 0 = p0.hasPlayer := by
  simp [hasPlayerAt, h00, h11]

theorem hasPlayerAt_pair_one (p0 p1 : Paddle) (h00 : p0.entity = 0) (h11 : p1.entity = 1) :
    hasPlayerAt [p0, p1] 1 = p1.hasPlayer := by
  simp [hasPlayerAt, h00, h11]

theorem view_init (P : List Paddle) (h : paddleBaseB P = true) :
    ViewFree P (freePaddles P) [] ∧ ViewOK P (freePaddles P) := by
  obtain ⟨p0, p1, hP, h00, h0L, h11, h1R⟩ := paddleBaseB_shape h
  subst hP
  have hmem : ∀ pe ∈ freePaddles [p0, p1],
      (pe = (p0.entity, p0.side) ∧ p0.hasPlayer = false) ∨
      (pe = (p1.entity, p1.side) ∧ p1.hasPlayer = false) := by
    intro pe hpe
    simp only [freePaddles, List.mem_map, List.mem_filter] at hpe
    obtain ⟨p, ⟨hpmem, hpfree⟩, hpe2⟩ := hpe
    have hpfree2 : p.hasPlayer = false := by
      cases hhp : p.hasPlayer
      · rfl
      · rw [hhp] at hpfree; simp at hpfree
    rcases List.mem_cons.mp hpmem with h1 | h1
    · left; exact ⟨by rw [← hpe2, h1], by rw [← h1]; exact hpfree2⟩
    · rcases List.mem_cons.mp h1 with h2 | h2
      · right; exact ⟨by rw [← hpe2, h2], by rw [← h2]; exact hpfree2⟩
      · simp at h2
  constructor
  · intro pe hpe
    rw [applyCmds_nil]
    rcases hmem pe hpe with ⟨hpe2, hfree⟩ | ⟨hpe2, hfree⟩
    · rw [hpe2]
      show hasPlayerAt [p0, p1] p0.entity = false
      rw [h00, hasPlayerAt_pair_zero p0 p1 h00 h11, hfree]
    · rw [hpe2]
      show hasPlayerAt [p0, p1] p1.entity = false
      rw [h11, hasPlayerAt_pair_one p0 p1 h00 h11, hfree]
  · intro pe hpe
    rcases hmem pe hpe with ⟨hpe2, _⟩ | ⟨hpe2, _⟩
    · rw [hpe2]
      refine ⟨by rw [h00]; omega, ?_⟩
      show containsEntity [p0, p1] p0.entity = true
      simp [containsEntity, h00]
    · rw [hpe2]
      refine ⟨by rw [h11]; omega, ?_⟩
      show containsEntity [p0, p1] p1.entity = true
      simp [containsEntity, h00, h11]

theorem drainInputs_playerCmd (lobby : List (Nat × Nat)) (d : Nat) (msgs : List PlayerInput) :
    ∀ cmd ∈ drainInputs lobby d msgs, playerCmdEntity cmd = none := by
  intro cmd h
  unfold drainInputs at h
  cases hl : lookupBox lobby d with
  | none => rw [hl] at h; simp at h
  | some e =>
    rw [hl] at h
    obtain ⟨m, _, hc⟩ := List.mem_map.mp h
    rw [← hc]
    rfl

theorem allInputCmds_playerCmd (lobby : List (Nat × Nat)) (i0 : List (Nat × List PlayerInput))
    (clients : List Nat) :
    ∀ cmd ∈ allInputCmds lobby i0 clients, playerCmdEntity cmd = none := by
  intro cmd h
  obtain ⟨d, _, hm⟩ := mem_allInputCmds lobby i0 clients cmd h
  exact drainInputs_playerCmd lobby d _ cmd hm

theorem paddleBaseB_applyCmds (P : List Paddle) (l : List Cmd)
    (h : paddleBaseB P = true) : paddleBaseB (applyCmds P l) = true := by
  obtain ⟨p0, p1, hP, h00, h0L, h11, h1R⟩ := paddleBaseB_shape h
  subst hP
  show paddleBaseB [l.foldl applyCmd p0, l.foldl applyCmd p1] = true
  simp [paddleBaseB, foldl_applyCmd_entity, foldl_applyCmd_side, h00, h0L, h11, h1R]

theorem ServerInv_update (s : ServerState) (inp : TickInput)
    (h : ServerInv s) (hcnt : connCount inp.events ≤ 1) :
    ServerInv (server_update_system s inp) := by
  obtain ⟨hbase, hk, hv, hent⟩ := h
  have hEv0 : EvInv s.paddles (s, ([] : List Cmd)) :=
    ⟨rfl, hk, hv, fun pr hpr => by rw [applyCmds_nil]; exact hent pr hpr⟩
  obtain ⟨hvfree, hvok⟩ := view_init s.paddles hbase
  have hEv1 : EvInv s.paddles (processEvents (freePaddles s.paddles) (s, []) inp.events) :=
    processEvents_one_conn s.paddles (freePaddles s.paddles) hvok inp.events (s, []) hcnt
      hEv0 hvfree
  obtain ⟨hP1, hk1, hv1, hent1⟩ := hEv1
  have hpad : (server_update_system s inp).paddles =
      applyCmds (processEvents (freePaddles s.paddles) (s, []) inp.events).1.paddles
        ((processEvents (freePaddles s.paddles) (s, []) inp.events).2 ++
          allInputCmds (processEvents (freePaddles s.paddles) (s, []) inp.events).1.lobby
            inp.inbox0 (processEvents (freePaddles s.paddles) (s, []) inp.events).1.connected) := by
    show applyCmds (processEvents (freePaddles s.paddles) (s, []) inp.events).1.paddles
      (receiveLoop (processEvents (freePaddles s.paddles) (s, []) inp.events).1.lobby
        inp.inbox0 inp.inbox2
        ((processEvents (freePaddles s.paddles) (s, []) inp.events).2,
         (processEvents (freePaddles s.paddles) (s, []) inp.events).1.responses)
        (processEvents (freePaddles s.paddles) (s, []) inp.events).1.connected).1 = _
    rw [receiveLoop_fst]
  have hlob : (server_update_system s inp).lobby =
      (processEvents (freePaddles s.paddles) (s, []) inp.events).1.lobby := rfl
  refine ⟨?_, ?_, ?_, ?_⟩
  · rw [hpad, hP1]
    exact paddleBaseB_applyCmds s.paddles _ hbase
  · rw [hlob]
    exact hk1
  · rw [hlob]
    exact hv1
  · intro pr hpr
    rw [hlob] at hpr
    obtain ⟨hlt, hhp⟩ := hent1 pr hpr
    refine ⟨hlt, ?_⟩
    rw [hpad, hP1, applyCmds_append, hasPlayerAt_applyCmds_untouched]
    · exact hhp
    · intro c hc
      rw [allInputCmds_playerCmd _ _ _ c hc]
      exact fun hcon => Option.noConfusion hcon

theorem hasPlayerAt_map_y (P : List Paddle) (e : Nat) :
    hasPlayerAt (P.map (fun p => { p with y := 0 })) e = hasPlayerAt P e := by
  induction P with
  | nil => rfl
  | cons p ps ih =>
    dsimp [hasPlayerAt]
    rw [ih]

theorem ServerInv_resetter (s : ServerState) (h : ServerInv s) : ServerInv (resetter s) := by
  unfold resetter
  split
  · exact h
  · obtain ⟨hbase, hk, hv, hent⟩ := h
    refine ⟨?_, hk, hv, ?_⟩
    · show paddleBaseB (s.paddles.map fun p => { p with y := 0 }) = true
      obtain ⟨p0, p1, hP, h00, h0L, h11, h1R⟩ := paddleBaseB_shape hbase
      rw [hP]
      simp [paddleBaseB, h00, h0L, h11, h1R]
    · intro pr hpr
      obtain ⟨hlt, hhp⟩ := hent pr hpr
      refine ⟨hlt, ?_⟩
      show hasPlayerAt (s.paddles.map fun p => { p with y := 0 }) pr.2 = true
      rw [hasPlayerAt_map_y]
      exact hhp

theorem processError_paddles_lobby (delta : Nat) (s : ServerState) :
    (processError delta s).paddles = s.paddles ∧ (processError delta s).lobby = s.lobby := by
  by_cases h1 : (s.timerPaused && !s.latch) = true
  · simp [processError, h1]
  · by_cases h2 : s.timerPaused = true
    · simp [processError, timerTick, h1, h2]
      all_goals first
      | exact ⟨rfl, rfl⟩
      | (split <;> exact ⟨rfl, rfl⟩)
    · by_cases h3 : s.timerFinished = true
      · simp [processError, timerTick, h1, h2, h3]
      · by_cases h4 : 3000 ≤ s.timerElapsed + delta
        · simp [processError, timerTick, h1, h2, h3, h4]
        · simp [processError, timerTick, h1, h2, h3, h4]

theorem ServerInv_panic (s : ServerState) (n delta : Nat) (h : ServerInv s) :
    ServerInv (panic_on_error_system s n delta) := by
  induction n generalizing s with
  | zero => exact h
  | succ n ih =>
    show ServerInv (panic_on_error_system (processError delta s) n delta)
    apply ih
    obtain ⟨hb, hk, hv, he⟩ := h
    obtain ⟨hp, hl⟩ := processError_paddles_lobby delta s
    refine ⟨by rw [hp]; exact hb, by rw [hl]; exact hk, by rw [hl]; exact hv, ?_⟩
    intro pr hpr
    rw [hl] at hpr
    obtain ⟨hlt, hhp⟩ := he pr hpr
    exact ⟨hlt, by rw [hp]; exact hhp⟩

theorem ServerInv_frame (s : ServerState) (f : FrameInput)
    (h : ServerInv s) (hcnt : connCount f.events ≤ 1) : ServerInv (serverFrame s f) :=
  ServerInv_panic _ f.errors f.delta
    (ServerInv_resetter _
      (ServerInv_update s ⟨f.events, f.inbox0, f.inbox2⟩ h hcnt))

theorem ServerInv_runFrames (fs : List FrameInput) :
    ∀ s : ServerState, ServerInv s → (∀ f ∈ fs, connCount f.events ≤ 1) →
      ServerInv (runFrames s fs) := by
  induction fs with
  | nil => intro s h _; exact h
  | cons f rest ih =>
    intro s h hcnt
    show ServerInv (runFrames (serverFrame s f) rest)
    exact ih (serverFrame s f)
      (ServerInv_frame s f h (hcnt f (List.mem_cons_self f rest)))
      (fun g hg => hcnt g (List.mem_cons_of_mem f hg))

theorem ServerInv_init (bl bv : Int × Int) : ServerInv (initServer bl bv) := by
  refine ⟨rfl, List.nodup_nil, List.nodup_nil, ?_⟩
  intro pr hpr
  exact absurd hpr (List.not_mem_nil pr)

theorem ServerInv_conclusion (s : ServerState) (h : ServerInv s) :
    s.lobby.length ≤ 2 ∧
    (s.lobby.length = 2 →
      boundSides s = [some PlayerSide.Left, some PlayerSide.Right] ∨
      boundSides s = [some PlayerSide.Right, some PlayerSide.Left]) := by
  obtain ⟨hbase, hk, hv, hent⟩ := h
  refine ⟨length_le_two_of_values s.lobby hv (fun pr hpr => (hent pr hpr).1), ?_⟩
  intro hlen
  obtain ⟨p0, p1, hP, h00, h0L, h11, h1R⟩ := paddleBaseB_shape hbase
  have hs0 : sideAt s.paddles 0 = some PlayerSide.Left := by
    rw [hP]
    dsimp [sideAt]
    rw [if_pos h00, h0L]
  have hs1 : sideAt s.paddles 1 = some PlayerSide.Right := by
    rw [hP]
    dsimp [sideAt]
    rw [if_neg (by omega : ¬ p0.entity = 1), if_pos h11, h1R]
  obtain ⟨a, b, hab⟩ : ∃ a b, s.lobby = [a, b] := by
    cases hL : s.lobby with
    | nil => rw [hL] at hlen; simp at hlen
    | cons a t =>
      cases t with
      | nil => rw [hL] at hlen; simp at hlen
      | cons b t2 =>
        cases t2 with
        | nil => exact ⟨a, b, rfl⟩
        | cons c t3 => rw [hL] at hlen; simp at hlen
  have ha : a ∈ s.lobby := by rw [hab]; exact List.mem_cons_self a [b]
  have hb : b ∈ s.lobby := by rw [hab]; exact List.mem_cons_of_mem a (List.mem_cons_self b [])
  have ha2 := (hent a ha).1
  have hb2 := (hent b hb).1
  have hne : a.2 ≠ b.2 := by
    rw [hab] at hv
    simp only [List.map_cons, List.map_nil, List.nodup_cons, List.mem_cons] at hv
    intro hcontra
    exact hv.1 (by simp [hcontra])
  have hbs : boundSides s = [sideAt s.paddles a.2, sideAt s.paddles b.2] := by
    rw [boundSides, hab]
    rfl
  have hcases : (a.2 = 0 ∧ b.2 = 1) ∨ (a.2 = 1 ∧ b.2 = 0) := by omega
  rcases hcases with ⟨hA, hB⟩ | ⟨hA, hB⟩
  · left
    rw [hbs, hA, hB, hs0, hs1]
  · right
    rw [hbs, hA, hB, hs1, hs0]

/-- C1 (amended): provided each server tick processes at most one
client-connected event (client-disconnected events are unrestricted), the
lobby never holds more than 2 entries, and whenever it holds 2 the two
bound slots are the Left and the Right paddle — never the same slot twice.
(The original claim's "including when several clients connect within the
same tick" is exactly what fails: the free-paddle query is stale for the
whole tick, so same-tick connects share one slot — see the
counterexample.) -/
theorem lobby_capacity_and_distinct_slots (bl bv : Int × Int) (fs : List FrameInput)
    (h : ∀ f ∈ fs, connCount f.events ≤ 1) :
    (runFrames (initServer bl bv) fs).lobby.length ≤ 2 ∧
    ((runFrames (initServer bl bv) fs).lobby.length = 2 →
      boundSides (runFrames (initServer bl bv) fs) =
        [some PlayerSide.Left, some PlayerSide.Right] ∨
      boundSides (runFrames (initServer bl bv) fs) =
        [some PlayerSide.Right, some PlayerSide.Left]) :=
  ServerInv_conclusion _ (ServerInv_runFrames fs (initServer bl bv) (ServerInv_init bl bv) h)

/-- Witness for the amended C1: two one-connect ticks followed by a
disconnect tick satisfy the per-tick hypothesis, and the resulting lobby
obeys the bound. -/
theorem lobby_capacity_and_distinct_slots_witness :
    (∀ f ∈ [(⟨[ServerEvent.ClientConnected 100], [], [], 0, 0⟩ : FrameInput),
            ⟨[ServerEvent.ClientConnected 200], [], [], 0, 0⟩,
            ⟨[ServerEvent.ClientDisconnected 100], [], [], 0, 0⟩],
      connCount f.events ≤ 1) ∧
    (runFrames (initServer (0, 0) (0, 0))
        [⟨[ServerEvent.ClientConnected 100], [], [], 0, 0⟩,
         ⟨[ServerEvent.ClientConnected 200], [], [], 0, 0⟩,
         ⟨[ServerEvent.ClientDisconnected 100], [], [], 0, 0⟩]).lobby.length ≤ 2 :=
  ⟨by decide,
   (lobby_capacity_and_distinct_slots (0, 0) (0, 0)
     [⟨[ServerEvent.ClientConnected 100], [], [], 0, 0⟩,
      ⟨[ServerEvent.ClientConnected 200], [], [], 0, 0⟩,
      ⟨[ServerEvent.ClientDisconnected 100], [], [], 0, 0⟩] (by decide)).1⟩
